import Mathlib

/-!
Shallow embedding of the reference-finding query of
`common/lanelet2_extension` (`lib/query.cpp`, `include/.../utility/query.h`).

The five `recurse` overloads of `query.cpp` are embedded one-to-one.  The
external lanelet2 map layers (existence-by-id and reverse-usage lookups) are
modelled per the spec's collaborator contract: each layer is a list of
primitives, `exists` checks id membership, `findUsages` filters the layer by
id-based reference.  `query::References` (query.h lines 52-70) deduplicates
by id, so each result set is a list with insert-if-id-absent.
-/

namespace Lanelet2

/-- A lanelet id.  Only id equality matters to the query. -/
abbrev Id := Nat

/-- `lanelet::ConstPoint3d`: id and (irrelevant to the traversal) geometry. -/
structure Point where
  id : Id
deriving DecidableEq, Repr

/-- `lanelet::ConstLineString3d`: id and its ordered child points
(iterating a linestring yields its points, query.cpp line 59). -/
structure LineString where
  id : Id
  points : List Point
deriving DecidableEq, Repr

mutual
/-- `lanelet::ConstLanelet`: id, left/right bound linestrings and attached
regulatory elements. -/
inductive Lanelet where
  | mk (id : Id) (leftBound : LineString) (rightBound : LineString)
       (regElems : List RegElem)

/-- `lanelet::ConstArea`: id, outer bound, inner bounds and attached
regulatory elements. -/
inductive Area where
  | mk (id : Id) (outerBound : List LineString)
       (innerBounds : List (List LineString)) (regElems : List RegElem)

/-- `lanelet::RegulatoryElementConstPtr`: id plus its rule parameters,
split by primitive kind (points, linestrings such as stop lines, lanelets,
areas).  The visitor dispatch enumerates exactly these. -/
inductive RegElem where
  | mk (id : Id) (paramPoints : List Point) (paramLineStrings : List LineString)
       (paramLanelets : List Lanelet) (paramAreas : List Area)
end

def Lanelet.id : Lanelet → Id
  | .mk i _ _ _ => i

def Lanelet.leftBound : Lanelet → LineString
  | .mk _ lb _ _ => lb

def Lanelet.rightBound : Lanelet → LineString
  | .mk _ _ rb _ => rb

def Lanelet.regElems : Lanelet → List RegElem
  | .mk _ _ _ rs => rs

def Area.id : Area → Id
  | .mk i _ _ _ => i

def Area.outerBound : Area → List LineString
  | .mk _ ob _ _ => ob

def Area.innerBounds : Area → List (List LineString)
  | .mk _ _ ib _ => ib

def Area.regElems : Area → List RegElem
  | .mk _ _ _ rs => rs

def RegElem.id : RegElem → Id
  | .mk i _ _ _ _ => i

def RegElem.paramPoints : RegElem → List Point
  | .mk _ ps _ _ _ => ps

def RegElem.paramLineStrings : RegElem → List LineString
  | .mk _ _ lss _ _ => lss

def RegElem.paramLanelets : RegElem → List Lanelet
  | .mk _ _ _ ls _ => ls

def RegElem.paramAreas : RegElem → List Area
  | .mk _ _ _ _ as => as

/-- `lanelet::LaneletMapPtr`: the five primitive layers.
Modelled from the spec: the Layered Map is an external collaborator exposing,
per layer, existence checks and reverse-usage lookups (spec section 6). -/
structure LaneletMap where
  pointLayer : List Point
  lineStringLayer : List LineString
  laneletLayer : List Lanelet
  areaLayer : List Area
  regulatoryElementLayer : List RegElem

/-- `ll_Map->lineStringLayer.findUsages(point)`: linestrings of the layer
containing a point with this id. -/
def LaneletMap.lineStringFindUsages (m : LaneletMap) (p : Point) : List LineString :=
  m.lineStringLayer.filter (fun ls => ls.points.any (fun q => q.id == p.id))

/-- `ll_Map->laneletLayer.findUsages(ls)`: lanelets using the linestring as
left or right bound. -/
def LaneletMap.laneletFindUsagesLs (m : LaneletMap) (ls : LineString) : List Lanelet :=
  m.laneletLayer.filter
    (fun llt => llt.leftBound.id == ls.id || llt.rightBound.id == ls.id)

/-- `ll_Map->areaLayer.findUsages(ls)`: areas whose outer or some inner bound
contains the linestring. -/
def LaneletMap.areaFindUsagesLs (m : LaneletMap) (ls : LineString) : List Area :=
  m.areaLayer.filter
    (fun a => (a.outerBound.any (fun b => b.id == ls.id))
      || (a.innerBounds.any (fun loop => loop.any (fun b => b.id == ls.id))))

/-- `ll_Map->regulatoryElementLayer.findUsages(ls)`: regulatory elements
referencing the linestring among their rule parameters. -/
def LaneletMap.regemFindUsagesLs (m : LaneletMap) (ls : LineString) : List RegElem :=
  m.regulatoryElementLayer.filter
    (fun re => re.paramLineStrings.any (fun b => b.id == ls.id))

/-- `ll_Map->laneletLayer.findUsages(regem)`: lanelets with this regulatory
element attached. -/
def LaneletMap.laneletFindUsagesRegem (m : LaneletMap) (re : RegElem) : List Lanelet :=
  m.laneletLayer.filter (fun llt => llt.regElems.any (fun r => r.id == re.id))

/-- `ll_Map->areaLayer.findUsages(regem)`: areas with this regulatory element
attached. -/
def LaneletMap.areaFindUsagesRegem (m : LaneletMap) (re : RegElem) : List Area :=
  m.areaLayer.filter (fun a => a.regElems.any (fun r => r.id == re.id))

/-- `ll_Map->lineStringLayer.exists(id)`. -/
def LaneletMap.lineStringLayerHas (m : LaneletMap) (i : Id) : Bool :=
  m.lineStringLayer.any (fun ls => ls.id == i)

/-- `ll_Map->laneletLayer.exists(id)`. -/
def LaneletMap.laneletLayerHas (m : LaneletMap) (i : Id) : Bool :=
  m.laneletLayer.any (fun llt => llt.id == i)

/-- `ll_Map->areaLayer.exists(id)`. -/
def LaneletMap.areaLayerHas (m : LaneletMap) (i : Id) : Bool :=
  m.areaLayer.any (fun a => a.id == i)

/-- `ll_Map->regulatoryElementLayer.exists(id)`. -/
def LaneletMap.regemLayerHas (m : LaneletMap) (i : Id) : Bool :=
  m.regulatoryElementLayer.any (fun re => re.id == i)

/-- `query::direction` (query.h line 51). -/
inductive direction where
  | CHECK_CHILD
  | CHECK_PARENT
deriving DecidableEq, Repr

export direction (CHECK_CHILD CHECK_PARENT)

/-- `query::References` (query.h lines 52-70): four per-layer result sets.
The C++ `unordered_set`s hash and compare by id, so each set is keyed by id;
we model each as a list into which insertion is id-deduplicating. -/
structure References where
  lss : List LineString
  llts : List Lanelet
  areas : List Area
  regems : List RegElem

/-- Default-constructed `References`: all four sets empty. -/
def References.empty : References := ⟨[], [], [], []⟩

/-- `rfs.lss.insert(prim)`: no-op when a linestring with the same id is
already present. -/
def References.insertLs (rfs : References) (prim : LineString) : References :=
  if rfs.lss.any (fun x => x.id == prim.id) then rfs
  else { rfs with lss := prim :: rfs.lss }

/-- `rfs.llts.insert(prim)`. -/
def References.insertLlt (rfs : References) (prim : Lanelet) : References :=
  if rfs.llts.any (fun x => x.id == prim.id) then rfs
  else { rfs with llts := prim :: rfs.llts }

/-- `rfs.areas.insert(prim)`. -/
def References.insertArea (rfs : References) (prim : Area) : References :=
  if rfs.areas.any (fun x => x.id == prim.id) then rfs
  else { rfs with areas := prim :: rfs.areas }

/-- `rfs.regems.insert(prim)`. -/
def References.insertRegem (rfs : References) (prim : RegElem) : References :=
  if rfs.regems.any (fun x => x.id == prim.id) then rfs
  else { rfs with regems := prim :: rfs.regems }

/-- `recurse(ConstLanelet, ..., CHECK_PARENT)` (query.cpp lines 112-116):
no one owns a lanelet, insert it if it exists in its layer. -/
def recurse_llt_up (prim : Lanelet) (ll_Map : LaneletMap) (rfs : References) :
    References :=
  if ll_Map.laneletLayerHas prim.id then rfs.insertLlt prim else rfs

/-- `recurse(ConstArea, ..., CHECK_PARENT)` (query.cpp lines 141-145):
no one owns an area, insert it if it exists in its layer. -/
def recurse_area_up (prim : Area) (ll_Map : LaneletMap) (rfs : References) :
    References :=
  if ll_Map.areaLayerHas prim.id then rfs.insertArea prim else rfs

/-- `recurse(RegulatoryElementConstPtr, ..., CHECK_PARENT)` (query.cpp lines
159-178): recurse up into owning lanelets and areas; if both usage lists are
empty and the element exists in its layer, record it. -/
def recurse_regem_up (prim : RegElem) (ll_Map : LaneletMap) (rfs : References) :
    References :=
  let llt_list := ll_Map.laneletFindUsagesRegem prim
  let rfs1 := llt_list.foldl (fun r llt => recurse_llt_up llt ll_Map r) rfs
  let area_list := ll_Map.areaFindUsagesRegem prim
  let rfs2 := area_list.foldl (fun r a => recurse_area_up a ll_Map r) rfs1
  if area_list.length == 0 && llt_list.length == 0
      && ll_Map.regemLayerHas prim.id then
    rfs2.insertRegem prim
  else rfs2

/-- `recurse(ConstLineString3d, ..., CHECK_PARENT)` (query.cpp lines 67-94):
recurse up into owning lanelets, areas and regulatory elements; if all three
usage lists are empty and the linestring exists in its layer, record it. -/
def recurse_ls_up (prim : LineString) (ll_Map : LaneletMap) (rfs : References) :
    References :=
  let llt_list := ll_Map.laneletFindUsagesLs prim
  let rfs1 := llt_list.foldl (fun r llt => recurse_llt_up llt ll_Map r) rfs
  let area_list := ll_Map.areaFindUsagesLs prim
  let rfs2 := area_list.foldl (fun r a => recurse_area_up a ll_Map r) rfs1
  let regem_list := ll_Map.regemFindUsagesLs prim
  let rfs3 := regem_list.foldl (fun r re => recurse_regem_up re ll_Map r) rfs2
  if area_list.length == 0 && llt_list.length == 0 && regem_list.length == 0
      && ll_Map.lineStringLayerHas prim.id then
    rfs3.insertLs prim
  else rfs3

/-- `recurse(ConstPoint3d, ...)` (query.cpp lines 36-50): the direction
argument is ignored; look up the owning linestrings, discard the point when
there are none, otherwise recurse up (`CHECK_PARENT`) into each owner. -/
def recurse_point (prim : Point) (ll_Map : LaneletMap) (check_dir : direction)
    (rfs : References) : References :=
  let ls_list_owning_point := ll_Map.lineStringFindUsages prim
  if ls_list_owning_point.length == 0 then rfs
  else ls_list_owning_point.foldl (fun r ls => recurse_ls_up ls ll_Map r) rfs

/-- `recurse(ConstLineString3d, ..., CHECK_CHILD)` (query.cpp lines 56-65):
recurse down into each child point (whose recursion ignores the direction and
turns back up). -/
def recurse_ls_down (prim : LineString) (ll_Map : LaneletMap) (rfs : References) :
    References :=
  prim.points.foldl (fun r p => recurse_point p ll_Map CHECK_CHILD r) rfs

mutual
/-- `recurse(ConstLanelet, ..., CHECK_CHILD)` (query.cpp lines 100-110):
recurse down into the left bound, the right bound, then each attached
regulatory element. -/
def recurse_llt_down (prim : Lanelet) (ll_Map : LaneletMap) (rfs : References) :
    References :=
  match prim with
  | .mk _ lb rb regs =>
    recurse_regem_list_down regs ll_Map
      (recurse_ls_down rb ll_Map (recurse_ls_down lb ll_Map rfs))

/-- `recurse(ConstArea, ..., CHECK_CHILD)` (query.cpp lines 122-138):
recurse down into the outer bound linestrings, every inner bound's
linestrings, then each attached regulatory element. -/
def recurse_area_down (prim : Area) (ll_Map : LaneletMap) (rfs : References) :
    References :=
  match prim with
  | .mk _ outer inner regs =>
    let r1 := outer.foldl (fun r ls => recurse_ls_down ls ll_Map r) rfs
    let r2 := inner.foldl
      (fun r loop => loop.foldl (fun r2 ls => recurse_ls_down ls ll_Map r2) r) r1
    recurse_regem_list_down regs ll_Map r2

/-- `recurse(RegulatoryElementConstPtr, ..., CHECK_CHILD)` (query.cpp lines
152-156).  Modelled from the spec: the `RecurseVisitor` applied here lives in
the missing `internal/query.tpp`; per spec section 4.3 it enumerates every
primitive the rule references and forwards each into the downward
recursion. -/
def recurse_regem_down (prim : RegElem) (ll_Map : LaneletMap) (rfs : References) :
    References :=
  match prim with
  | .mk _ pps plss pllts pareas =>
    let r1 := pps.foldl (fun r p => recurse_point p ll_Map CHECK_CHILD r) rfs
    let r2 := plss.foldl (fun r ls => recurse_ls_down ls ll_Map r) r1
    let r3 := recurse_llt_list_down pllts ll_Map r2
    recurse_area_list_down pareas ll_Map r3

/-- Downward recursion over a list of attached regulatory elements
(the `for` loops at query.cpp lines 106-107 and 135-136). -/
def recurse_regem_list_down (l : List RegElem) (ll_Map : LaneletMap)
    (rfs : References) : References :=
  match l with
  | [] => rfs
  | re :: rest => recurse_regem_list_down rest ll_Map (recurse_regem_down re ll_Map rfs)

/-- Downward recursion over a rule's lanelet parameters. -/
def recurse_llt_list_down (l : List Lanelet) (ll_Map : LaneletMap)
    (rfs : References) : References :=
  match l with
  | [] => rfs
  | llt :: rest => recurse_llt_list_down rest ll_Map (recurse_llt_down llt ll_Map rfs)

/-- Downward recursion over a rule's area parameters. -/
def recurse_area_list_down (l : List Area) (ll_Map : LaneletMap)
    (rfs : References) : References :=
  match l with
  | [] => rfs
  | a :: rest => recurse_area_list_down rest ll_Map (recurse_area_down a ll_Map rfs)
end

/-- `recurse(ConstLineString3d, ...)` (query.cpp lines 53-95), both
directions. -/
def recurse_ls (prim : LineString) (ll_Map : LaneletMap) (check_dir : direction)
    (rfs : References) : References :=
  if check_dir = CHECK_CHILD then recurse_ls_down prim ll_Map rfs
  else recurse_ls_up prim ll_Map rfs

/-- `recurse(ConstLanelet, ...)` (query.cpp lines 98-117), both directions. -/
def recurse_llt (prim : Lanelet) (ll_Map : LaneletMap) (check_dir : direction)
    (rfs : References) : References :=
  if check_dir = CHECK_CHILD then recurse_llt_down prim ll_Map rfs
  else recurse_llt_up prim ll_Map rfs

/-- `recurse(ConstArea, ...)` (query.cpp lines 120-146), both directions. -/
def recurse_area (prim : Area) (ll_Map : LaneletMap) (check_dir : direction)
    (rfs : References) : References :=
  if check_dir = CHECK_CHILD then recurse_area_down prim ll_Map rfs
  else recurse_area_up prim ll_Map rfs

/-- `recurse(RegulatoryElementConstPtr, ...)` (query.cpp lines 149-179), both
directions. -/
def recurse_regem (prim : RegElem) (ll_Map : LaneletMap) (check_dir : direction)
    (rfs : References) : References :=
  if check_dir = CHECK_CHILD then recurse_regem_down prim ll_Map rfs
  else recurse_regem_up prim ll_Map rfs

/-- `query::findReferences` instantiated at `ConstPoint3d`.
Modelled from the spec: the template body lives in the missing
`internal/query.tpp`; per spec section 4.2 the traversal is entered with
direction = up on an empty Reference Set. -/
def findReferencesPoint (prim : Point) (ll_Map : LaneletMap) : References :=
  recurse_point prim ll_Map CHECK_PARENT References.empty

/-- `query::findReferences` instantiated at `ConstLineString3d`.
Modelled from the spec: entered with direction = up on an empty set. -/
def findReferencesLs (prim : LineString) (ll_Map : LaneletMap) : References :=
  recurse_ls prim ll_Map CHECK_PARENT References.empty

/-- `query::findReferences` instantiated at `ConstLanelet`.
Modelled from the spec: entered with direction = up on an empty set. -/
def findReferencesLlt (prim : Lanelet) (ll_Map : LaneletMap) : References :=
  recurse_llt prim ll_Map CHECK_PARENT References.empty

/-- `query::findReferences` instantiated at `ConstArea`.
Modelled from the spec: entered with direction = up on an empty set. -/
def findReferencesArea (prim : Area) (ll_Map : LaneletMap) : References :=
  recurse_area prim ll_Map CHECK_PARENT References.empty

/-- `query::findReferences` instantiated at `RegulatoryElementConstPtr`.
Modelled from the spec: entered with direction = up on an empty set. -/
def findReferencesRegem (prim : RegElem) (ll_Map : LaneletMap) : References :=
  recurse_regem prim ll_Map CHECK_PARENT References.empty

/-! ### Fuelled variant of the recursion

Mirrors the five `recurse` overloads call for call, but spends one unit of
fuel at every entry and returns `none` when fuel runs out.  Relating it to
the total functions above bounds the recursion depth of the traversal. -/

mutual
/-- Fuelled `recurse(ConstPoint3d, ...)`. -/
def recurse_pointF : Nat → Point → LaneletMap → direction → References →
    Option References
  | 0, _, _, _, _ => none
  | Nat.succ fuel, prim, ll_Map, _, rfs =>
    let ls_list_owning_point := ll_Map.lineStringFindUsages prim
    if ls_list_owning_point.length == 0 then some rfs
    else ls_list_owning_point.foldlM
      (fun r ls => recurse_lsF fuel ls ll_Map CHECK_PARENT r) rfs

/-- Fuelled `recurse(ConstLineString3d, ...)`. -/
def recurse_lsF : Nat → LineString → LaneletMap → direction → References →
    Option References
  | 0, _, _, _, _ => none
  | Nat.succ fuel, prim, ll_Map, check_dir, rfs =>
    if check_dir = CHECK_CHILD then
      prim.points.foldlM (fun r p => recurse_pointF fuel p ll_Map check_dir r) rfs
    else do
      let llt_list := ll_Map.laneletFindUsagesLs prim
      let rfs1 ← llt_list.foldlM
        (fun r llt => recurse_lltF fuel llt ll_Map CHECK_PARENT r) rfs
      let area_list := ll_Map.areaFindUsagesLs prim
      let rfs2 ← area_list.foldlM
        (fun r a => recurse_areaF fuel a ll_Map CHECK_PARENT r) rfs1
      let regem_list := ll_Map.regemFindUsagesLs prim
      let rfs3 ← regem_list.foldlM
        (fun r re => recurse_regemF fuel re ll_Map CHECK_PARENT r) rfs2
      pure (if area_list.length == 0 && llt_list.length == 0
          && regem_list.length == 0 && ll_Map.lineStringLayerHas prim.id then
        rfs3.insertLs prim
      else rfs3)

/-- Fuelled `recurse(ConstLanelet, ...)`. -/
def recurse_lltF : Nat → Lanelet → LaneletMap → direction → References →
    Option References
  | 0, _, _, _, _ => none
  | Nat.succ fuel, prim, ll_Map, check_dir, rfs =>
    if check_dir = CHECK_CHILD then do
      let r1 ← recurse_lsF fuel prim.leftBound ll_Map check_dir rfs
      let r2 ← recurse_lsF fuel prim.rightBound ll_Map check_dir r1
      prim.regElems.foldlM
        (fun r regem => recurse_regemF fuel regem ll_Map check_dir r) r2
    else
      pure (if ll_Map.laneletLayerHas prim.id then rfs.insertLlt prim else rfs)

/-- Fuelled `recurse(ConstArea, ...)`. -/
def recurse_areaF : Nat → Area → LaneletMap → direction → References →
    Option References
  | 0, _, _, _, _ => none
  | Nat.succ fuel, prim, ll_Map, check_dir, rfs =>
    if check_dir = CHECK_CHILD then do
      let r1 ← prim.outerBound.foldlM
        (fun r ls => recurse_lsF fuel ls ll_Map check_dir r) rfs
      let r2 ← prim.innerBounds.foldlM
        (fun r loop => loop.foldlM
          (fun r2 ls => recurse_lsF fuel ls ll_Map check_dir r2) r) r1
      prim.regElems.foldlM
        (fun r regem => recurse_regemF fuel regem ll_Map check_dir r) r2
    else
      pure (if ll_Map.areaLayerHas prim.id then rfs.insertArea prim else rfs)

/-- Fuelled `recurse(RegulatoryElementConstPtr, ...)`. -/
def recurse_regemF : Nat → RegElem → LaneletMap → direction → References →
    Option References
  | 0, _, _, _, _ => none
  | Nat.succ fuel, prim, ll_Map, check_dir, rfs =>
    if check_dir = CHECK_CHILD then do
      let r1 ← prim.paramPoints.foldlM
        (fun r p => recurse_pointF fuel p ll_Map check_dir r) rfs
      let r2 ← prim.paramLineStrings.foldlM
        (fun r ls => recurse_lsF fuel ls ll_Map check_dir r) r1
      let r3 ← prim.paramLanelets.foldlM
        (fun r llt => recurse_lltF fuel llt ll_Map check_dir r) r2
      prim.paramAreas.foldlM
        (fun r a => recurse_areaF fuel a ll_Map check_dir r) r3
    else do
      let llt_list := ll_Map.laneletFindUsagesRegem prim
      let rfs1 ← llt_list.foldlM
        (fun r llt => recurse_lltF fuel llt ll_Map CHECK_PARENT r) rfs
      let area_list := ll_Map.areaFindUsagesRegem prim
      let rfs2 ← area_list.foldlM
        (fun r a => recurse_areaF fuel a ll_Map CHECK_PARENT r) rfs1
      pure (if area_list.length == 0 && llt_list.length == 0
          && ll_Map.regemLayerHas prim.id then
        rfs2.insertRegem prim
      else rfs2)
end

/-! ### Membership predicates and invariants -/

/-- Some linestring with id `i` is in the curve result set. -/
def hasLsId (rfs : References) (i : Id) : Prop := ∃ x ∈ rfs.lss, x.id = i

/-- Some lanelet with id `i` is in the lane-segment result set. -/
def hasLltId (rfs : References) (i : Id) : Prop := ∃ x ∈ rfs.llts, x.id = i

/-- Some area with id `i` is in the area result set. -/
def hasAreaId (rfs : References) (i : Id) : Prop := ∃ x ∈ rfs.areas, x.id = i

/-- Some regulatory element with id `i` is in the rule result set. -/
def hasRegemId (rfs : References) (i : Id) : Prop := ∃ x ∈ rfs.regems, x.id = i

/-- Component-wise containment of Reference Sets. -/
def refSubset (r1 r2 : References) : Prop :=
  r1.lss ⊆ r2.lss ∧ r1.llts ⊆ r2.llts ∧ r1.areas ⊆ r2.areas ∧
  r1.regems ⊆ r2.regems

/-- Every recorded curve is free-standing: its three reverse lookups are
empty (spec, Free-standing correctness). -/
def FreeStandingInv (m : LaneletMap) (rfs : References) : Prop :=
  ∀ x ∈ rfs.lss, m.laneletFindUsagesLs x = [] ∧ m.areaFindUsagesLs x = [] ∧
    m.regemFindUsagesLs x = []

/-- Each id occurs at most once within each of the four result sets. -/
def NodupIds (rfs : References) : Prop :=
  (rfs.lss.map LineString.id).Nodup ∧ (rfs.llts.map Lanelet.id).Nodup ∧
  (rfs.areas.map Area.id).Nodup ∧ (rfs.regems.map RegElem.id).Nodup

/-- Every recorded primitive's id exists in its own layer. -/
def AllExistInv (m : LaneletMap) (rfs : References) : Prop :=
  (∀ x ∈ rfs.lss, m.lineStringLayerHas x.id = true) ∧
  (∀ x ∈ rfs.llts, m.laneletLayerHas x.id = true) ∧
  (∀ x ∈ rfs.areas, m.areaLayerHas x.id = true) ∧
  (∀ x ∈ rfs.regems, m.regemLayerHas x.id = true)

/-! ### Concrete fixtures (the spec's concrete scenario and witnesses) -/

/-- A point contained in curve `c1`. -/
def p1 : Point := ⟨31⟩

/-- Boundary curve `c1` of lane segment `L1`. -/
def c1 : LineString := ⟨11, [p1]⟩

/-- Boundary curve `c2` of lane segment `L1`. -/
def c2 : LineString := ⟨12, []⟩

/-- Curve `c3`, referenced by rule `R1` as a stop line, boundary of nothing. -/
def c3 : LineString := ⟨13, []⟩

/-- A free-standing curve: no lanelet, area or rule references it. -/
def c4 : LineString := ⟨14, []⟩

/-- Rule element `R1`, attached to `L1`, referencing `c3`. -/
def R1 : RegElem := .mk 21 [] [c3] [] []

/-- Lane segment `L1` with boundaries `c1`, `c2` and attached rule `R1`. -/
def L1 : Lanelet := .mk 1 c1 c2 [R1]

/-- The concrete-scenario map of spec section 8. -/
def exMap : LaneletMap := ⟨[p1], [c1, c2, c3, c4], [L1], [], [R1]⟩

/-- `exMap` with a different (never consulted) point layer. -/
def exMap2 : LaneletMap := ⟨[], [c1, c2, c3, c4], [L1], [], [R1]⟩

/-! ### Basic lemmas about insertion and the Reference Set -/

theorem lss_insertLlt (rfs : References) (p : Lanelet) :
    (rfs.insertLlt p).lss = rfs.lss := by
  unfold References.insertLlt; split <;> rfl

theorem areas_insertLlt (rfs : References) (p : Lanelet) :
    (rfs.insertLlt p).areas = rfs.areas := by
  unfold References.insertLlt; split <;> rfl

theorem regems_insertLlt (rfs : References) (p : Lanelet) :
    (rfs.insertLlt p).regems = rfs.regems := by
  unfold References.insertLlt; split <;> rfl

theorem lss_insertArea (rfs : References) (p : Area) :
    (rfs.insertArea p).lss = rfs.lss := by
  unfold References.insertArea; split <;> rfl

theorem llts_insertArea (rfs : References) (p : Area) :
    (rfs.insertArea p).llts = rfs.llts := by
  unfold References.insertArea; split <;> rfl

theorem regems_insertArea (rfs : References) (p : Area) :
    (rfs.insertArea p).regems = rfs.regems := by
  unfold References.insertArea; split <;> rfl

theorem lss_insertRegem (rfs : References) (p : RegElem) :
    (rfs.insertRegem p).lss = rfs.lss := by
  unfold References.insertRegem; split <;> rfl

theorem llts_insertRegem (rfs : References) (p : RegElem) :
    (rfs.insertRegem p).llts = rfs.llts := by
  unfold References.insertRegem; split <;> rfl

theorem areas_insertRegem (rfs : References) (p : RegElem) :
    (rfs.insertRegem p).areas = rfs.areas := by
  unfold References.insertRegem; split <;> rfl

theorem llts_insertLs (rfs : References) (p : LineString) :
    (rfs.insertLs p).llts = rfs.llts := by
  unfold References.insertLs; split <;> rfl

theorem areas_insertLs (rfs : References) (p : LineString) :
    (rfs.insertLs p).areas = rfs.areas := by
  unfold References.insertLs; split <;> rfl

theorem regems_insertLs (rfs : References) (p : LineString) :
    (rfs.insertLs p).regems = rfs.regems := by
  unfold References.insertLs; split <;> rfl

theorem mem_lss_insertLs {rfs : References} {p x : LineString}
    (h : x ∈ (rfs.insertLs p).lss) : x ∈ rfs.lss ∨ x = p := by
  unfold References.insertLs at h
  split at h
  · exact Or.inl h
  · rcases List.mem_cons.mp h with h | h
    · exact Or.inr h
    · exact Or.inl h

theorem mem_llts_insertLlt {rfs : References} {p x : Lanelet}
    (h : x ∈ (rfs.insertLlt p).llts) : x ∈ rfs.llts ∨ x = p := by
  unfold References.insertLlt at h
  split at h
  · exact Or.inl h
  · rcases List.mem_cons.mp h with h | h
    · exact Or.inr h
    · exact Or.inl h

theorem mem_areas_insertArea {rfs : References} {p x : Area}
    (h : x ∈ (rfs.insertArea p).areas) : x ∈ rfs.areas ∨ x = p := by
  unfold References.insertArea at h
  split at h
  · exact Or.inl h
  · rcases List.mem_cons.mp h with h | h
    · exact Or.inr h
    · exact Or.inl h

theorem mem_regems_insertRegem {rfs : References} {p x : RegElem}
    (h : x ∈ (rfs.insertRegem p).regems) : x ∈ rfs.regems ∨ x = p := by
  unfold References.insertRegem at h
  split at h
  · exact Or.inl h
  · rcases List.mem_cons.mp h with h | h
    · exact Or.inr h
    · exact Or.inl h

theorem hasLsId_insertLs_self (rfs : References) (p : LineString) :
    hasLsId (rfs.insertLs p) p.id := by
  unfold References.insertLs hasLsId
  split
  · next h =>
    rcases List.any_eq_true.mp h with ⟨x, hx, hbeq⟩
    exact ⟨x, hx, by simpa using hbeq⟩
  · exact ⟨p, List.mem_cons_self p _, rfl⟩

theorem hasLltId_insertLlt_self (rfs : References) (p : Lanelet) :
    hasLltId (rfs.insertLlt p) p.id := by
  unfold References.insertLlt hasLltId
  split
  · next h =>
    rcases List.any_eq_true.mp h with ⟨x, hx, hbeq⟩
    exact ⟨x, hx, by simpa using hbeq⟩
  · exact ⟨p, List.mem_cons_self p _, rfl⟩

theorem hasAreaId_insertArea_self (rfs : References) (p : Area) :
    hasAreaId (rfs.insertArea p) p.id := by
  unfold References.insertArea hasAreaId
  split
  · next h =>
    rcases List.any_eq_true.mp h with ⟨x, hx, hbeq⟩
    exact ⟨x, hx, by simpa using hbeq⟩
  · exact ⟨p, List.mem_cons_self p _, rfl⟩

theorem hasRegemId_insertRegem_self (rfs : References) (p : RegElem) :
    hasRegemId (rfs.insertRegem p) p.id := by
  unfold References.insertRegem hasRegemId
  split
  · next h =>
    rcases List.any_eq_true.mp h with ⟨x, hx, hbeq⟩
    exact ⟨x, hx, by simpa using hbeq⟩
  · exact ⟨p, List.mem_cons_self p _, rfl⟩

theorem refSubset_refl (r : References) : refSubset r r :=
  ⟨List.Subset.refl _, List.Subset.refl _, List.Subset.refl _, List.Subset.refl _⟩

theorem refSubset_trans {r1 r2 r3 : References}
    (h12 : refSubset r1 r2) (h23 : refSubset r2 r3) : refSubset r1 r3 :=
  ⟨h12.1.trans h23.1, h12.2.1.trans h23.2.1, h12.2.2.1.trans h23.2.2.1,
   h12.2.2.2.trans h23.2.2.2⟩

theorem refSubset_insertLs (rfs : References) (p : LineString) :
    refSubset rfs (rfs.insertLs p) := by
  unfold References.insertLs
  split
  · exact refSubset_refl rfs
  · exact ⟨fun x hx => List.mem_cons_of_mem _ hx, List.Subset.refl _,
      List.Subset.refl _, List.Subset.refl _⟩

theorem refSubset_insertLlt (rfs : References) (p : Lanelet) :
    refSubset rfs (rfs.insertLlt p) := by
  unfold References.insertLlt
  split
  · exact refSubset_refl rfs
  · exact ⟨List.Subset.refl _, fun x hx => List.mem_cons_of_mem _ hx,
      List.Subset.refl _, List.Subset.refl _⟩

theorem refSubset_insertArea (rfs : References) (p : Area) :
    refSubset rfs (rfs.insertArea p) := by
  unfold References.insertArea
  split
  · exact refSubset_refl rfs
  · exact ⟨List.Subset.refl _, List.Subset.refl _,
      fun x hx => List.mem_cons_of_mem _ hx, List.Subset.refl _⟩

theorem refSubset_insertRegem (rfs : References) (p : RegElem) :
    refSubset rfs (rfs.insertRegem p) := by
  unfold References.insertRegem
  split
  · exact refSubset_refl rfs
  · exact ⟨List.Subset.refl _, List.Subset.refl _, List.Subset.refl _,
      fun x hx => List.mem_cons_of_mem _ hx⟩

theorem hasLsId_mono {r1 r2 : References} {i : Id}
    (hs : refSubset r1 r2) (h : hasLsId r1 i) : hasLsId r2 i := by
  rcases h with ⟨x, hx, he⟩
  exact ⟨x, hs.1 hx, he⟩

theorem hasLltId_mono {r1 r2 : References} {i : Id}
    (hs : refSubset r1 r2) (h : hasLltId r1 i) : hasLltId r2 i := by
  rcases h with ⟨x, hx, he⟩
  exact ⟨x, hs.2.1 hx, he⟩

theorem hasAreaId_mono {r1 r2 : References} {i : Id}
    (hs : refSubset r1 r2) (h : hasAreaId r1 i) : hasAreaId r2 i := by
  rcases h with ⟨x, hx, he⟩
  exact ⟨x, hs.2.2.1 hx, he⟩

theorem hasRegemId_mono {r1 r2 : References} {i : Id}
    (hs : refSubset r1 r2) (h : hasRegemId r1 i) : hasRegemId r2 i := by
  rcases h with ⟨x, hx, he⟩
  exact ⟨x, hs.2.2.2 hx, he⟩

/-! ### Generic fold lemmas -/

theorem foldl_preserve {α : Type} (P : References → Prop)
    (f : References → α → References)
    (h : ∀ r a, P r → P (f r a)) :
    ∀ (l : List α) (r : References), P r → P (l.foldl f r) := by
  intro l
  induction l with
  | nil => exact fun r hr => hr
  | cons a t ih =>
    intro r hr
    rw [List.foldl_cons]
    exact ih (f r a) (h r a hr)

theorem foldl_establish {α : Type} (P : References → Prop)
    (f : References → α → References) (a : α)
    (hest : ∀ r, P (f r a)) (hpres : ∀ r b, P r → P (f r b)) :
    ∀ (l : List α) (r : References), a ∈ l → P (l.foldl f r) := by
  intro l
  induction l with
  | nil => intro r hmem; exact absurd hmem (List.not_mem_nil a)
  | cons b t ih =>
    intro r hmem
    rw [List.foldl_cons]
    rcases List.mem_cons.mp hmem with h | h
    · subst h
      exact foldl_preserve P f hpres t (f r a) (hest r)
    · exact ih (f r b) h

theorem foldl_proj_eq {α β : Type} (f : References → α → References)
    (proj : References → List β)
    (h : ∀ r a, proj (f r a) = proj r) :
    ∀ (l : List α) (r : References), proj (l.foldl f r) = proj r := by
  intro l
  induction l with
  | nil => exact fun r => rfl
  | cons a t ih =>
    intro r
    rw [List.foldl_cons, ih (f r a), h]

theorem foldl_mem_cases {α β : Type} (f : References → α → References)
    (proj : References → List β) (Q : α → β → Prop)
    (hstep : ∀ r a x, x ∈ proj (f r a) → x ∈ proj r ∨ Q a x) :
    ∀ (l : List α) (r : References) (x : β),
      x ∈ proj (l.foldl f r) → x ∈ proj r ∨ ∃ a ∈ l, Q a x := by
  intro l
  induction l with
  | nil => exact fun r x hx => Or.inl hx
  | cons a t ih =>
    intro r x hx
    rw [List.foldl_cons] at hx
    rcases ih (f r a) x hx with h | ⟨b, hb, hq⟩
    · rcases hstep r a x h with h2 | hq
      · exact Or.inl h2
      · exact Or.inr ⟨a, List.mem_cons_self a t, hq⟩
    · exact Or.inr ⟨b, List.mem_cons_of_mem a hb, hq⟩

theorem refSubset_foldl {α : Type} (f : References → α → References)
    (h : ∀ r a, refSubset r (f r a)) (l : List α) (r : References) :
    refSubset r (l.foldl f r) :=
  foldl_preserve (fun r2 => refSubset r r2) f
    (fun r2 a hr2 => refSubset_trans hr2 (h r2 a)) l r (refSubset_refl r)

/-! ### Effect of each upward recursion step on the Reference Set -/

theorem lss_recurse_llt_up (p : Lanelet) (m : LaneletMap) (r : References) :
    (recurse_llt_up p m r).lss = r.lss := by
  unfold recurse_llt_up; split
  · exact lss_insertLlt r p
  · rfl

theorem areas_recurse_llt_up (p : Lanelet) (m : LaneletMap) (r : References) :
    (recurse_llt_up p m r).areas = r.areas := by
  unfold recurse_llt_up; split
  · exact areas_insertLlt r p
  · rfl

theorem regems_recurse_llt_up (p : Lanelet) (m : LaneletMap) (r : References) :
    (recurse_llt_up p m r).regems = r.regems := by
  unfold recurse_llt_up; split
  · exact regems_insertLlt r p
  · rfl

theorem lss_recurse_area_up (p : Area) (m : LaneletMap) (r : References) :
    (recurse_area_up p m r).lss = r.lss := by
  unfold recurse_area_up; split
  · exact lss_insertArea r p
  · rfl

theorem llts_recurse_area_up (p : Area) (m : LaneletMap) (r : References) :
    (recurse_area_up p m r).llts = r.llts := by
  unfold recurse_area_up; split
  · exact llts_insertArea r p
  · rfl

theorem regems_recurse_area_up (p : Area) (m : LaneletMap) (r : References) :
    (recurse_area_up p m r).regems = r.regems := by
  unfold recurse_area_up; split
  · exact regems_insertArea r p
  · rfl

theorem lss_recurse_regem_up (p : RegElem) (m : LaneletMap) (r : References) :
    (recurse_regem_up p m r).lss = r.lss := by
  simp only [recurse_regem_up]
  split
  · rw [lss_insertRegem,
      foldl_proj_eq _ _ (fun r2 a => lss_recurse_area_up a m r2),
      foldl_proj_eq _ _ (fun r2 a => lss_recurse_llt_up a m r2)]
  · rw [foldl_proj_eq _ _ (fun r2 a => lss_recurse_area_up a m r2),
      foldl_proj_eq _ _ (fun r2 a => lss_recurse_llt_up a m r2)]

theorem refSubset_recurse_llt_up (p : Lanelet) (m : LaneletMap) (r : References) :
    refSubset r (recurse_llt_up p m r) := by
  unfold recurse_llt_up; split
  · exact refSubset_insertLlt r p
  · exact refSubset_refl r

theorem refSubset_recurse_area_up (p : Area) (m : LaneletMap) (r : References) :
    refSubset r (recurse_area_up p m r) := by
  unfold recurse_area_up; split
  · exact refSubset_insertArea r p
  · exact refSubset_refl r

theorem refSubset_recurse_regem_up (p : RegElem) (m : LaneletMap) (r : References) :
    refSubset r (recurse_regem_up p m r) := by
  simp only [recurse_regem_up]
  split
  · exact @refSubset_trans r _ _
      (refSubset_foldl _ (fun r2 a => refSubset_recurse_llt_up a m r2) _ r)
      (@refSubset_trans _ _ _
        (refSubset_foldl _ (fun r2 a => refSubset_recurse_area_up a m r2) _ _)
        (refSubset_insertRegem _ _))
  · exact @refSubset_trans r _ _
      (refSubset_foldl _ (fun r2 a => refSubset_recurse_llt_up a m r2) _ r)
      (refSubset_foldl _ (fun r2 a => refSubset_recurse_area_up a m r2) _ _)

theorem refSubset_recurse_ls_up (p : LineString) (m : LaneletMap) (r : References) :
    refSubset r (recurse_ls_up p m r) := by
  simp only [recurse_ls_up]
  split
  · exact @refSubset_trans r _ _
      (refSubset_foldl _ (fun r2 a => refSubset_recurse_llt_up a m r2) _ r)
      (@refSubset_trans _ _ _
        (refSubset_foldl _ (fun r2 a => refSubset_recurse_area_up a m r2) _ _)
        (@refSubset_trans _ _ _
          (refSubset_foldl _ (fun r2 a => refSubset_recurse_regem_up a m r2) _ _)
          (refSubset_insertLs _ _)))
  · exact @refSubset_trans r _ _
      (refSubset_foldl _ (fun r2 a => refSubset_recurse_llt_up a m r2) _ r)
      (@refSubset_trans _ _ _
        (refSubset_foldl _ (fun r2 a => refSubset_recurse_area_up a m r2) _ _)
        (refSubset_foldl _ (fun r2 a => refSubset_recurse_regem_up a m r2) _ _))

theorem refSubset_recurse_point (p : Point) (m : LaneletMap) (d : direction)
    (r : References) : refSubset r (recurse_point p m d r) := by
  simp only [recurse_point]
  split
  · exact refSubset_refl r
  · exact refSubset_foldl _ (fun r2 a => refSubset_recurse_ls_up a m r2) _ r

theorem hasLltId_recurse_llt_up_self (p : Lanelet) (m : LaneletMap)
    (r : References) (h : m.laneletLayerHas p.id = true) :
    hasLltId (recurse_llt_up p m r) p.id := by
  unfold recurse_llt_up
  rw [h]
  exact hasLltId_insertLlt_self r p

/-! ### Where each member of a result set can come from -/

theorem mem_llts_recurse_llt_up {p : Lanelet} {m : LaneletMap} {r : References}
    {x : Lanelet} (hx : x ∈ (recurse_llt_up p m r).llts) :
    x ∈ r.llts ∨ m.laneletLayerHas x.id = true := by
  unfold recurse_llt_up at hx
  split at hx
  · next hp =>
    rcases mem_llts_insertLlt hx with hx2 | hx2
    · exact Or.inl hx2
    · rw [hx2]; exact Or.inr hp
  · exact Or.inl hx

theorem mem_areas_recurse_area_up {p : Area} {m : LaneletMap} {r : References}
    {x : Area} (hx : x ∈ (recurse_area_up p m r).areas) :
    x ∈ r.areas ∨ m.areaLayerHas x.id = true := by
  unfold recurse_area_up at hx
  split at hx
  · next hp =>
    rcases mem_areas_insertArea hx with hx2 | hx2
    · exact Or.inl hx2
    · rw [hx2]; exact Or.inr hp
  · exact Or.inl hx

theorem mem_llts_recurse_regem_up {p : RegElem} {m : LaneletMap} {r : References}
    {x : Lanelet} (hx : x ∈ (recurse_regem_up p m r).llts) :
    x ∈ r.llts ∨ m.laneletLayerHas x.id = true := by
  simp only [recurse_regem_up] at hx
  have step : ∀ (r2 : References) (a : Lanelet) (y : Lanelet),
      y ∈ (recurse_llt_up a m r2).llts →
      y ∈ r2.llts ∨ m.laneletLayerHas y.id = true :=
    fun r2 a y hy => mem_llts_recurse_llt_up hy
  split at hx
  · rw [llts_insertRegem,
      foldl_proj_eq _ _ (fun r2 a => llts_recurse_area_up a m r2)] at hx
    rcases foldl_mem_cases _ References.llts _ step _ r x hx with h | ⟨_, _, h⟩
    · exact Or.inl h
    · exact Or.inr h
  · rw [foldl_proj_eq _ _ (fun r2 a => llts_recurse_area_up a m r2)] at hx
    rcases foldl_mem_cases _ References.llts _ step _ r x hx with h | ⟨_, _, h⟩
    · exact Or.inl h
    · exact Or.inr h

theorem mem_areas_recurse_regem_up {p : RegElem} {m : LaneletMap} {r : References}
    {x : Area} (hx : x ∈ (recurse_regem_up p m r).areas) :
    x ∈ r.areas ∨ m.areaLayerHas x.id = true := by
  simp only [recurse_regem_up] at hx
  have step : ∀ (r2 : References) (a : Area) (y : Area),
      y ∈ (recurse_area_up a m r2).areas →
      y ∈ r2.areas ∨ m.areaLayerHas y.id = true :=
    fun r2 a y hy => mem_areas_recurse_area_up hy
  split at hx
  · rw [areas_insertRegem] at hx
    rcases foldl_mem_cases _ References.areas _ step _ _ x hx with h | ⟨_, _, h⟩
    · rw [foldl_proj_eq _ _ (fun r2 a => areas_recurse_llt_up a m r2)] at h
      exact Or.inl h
    · exact Or.inr h
  · rcases foldl_mem_cases _ References.areas _ step _ _ x hx with h | ⟨_, _, h⟩
    · rw [foldl_proj_eq _ _ (fun r2 a => areas_recurse_llt_up a m r2)] at h
      exact Or.inl h
    · exact Or.inr h

theorem mem_regems_recurse_regem_up {p : RegElem} {m : LaneletMap}
    {r : References} {x : RegElem} (hx : x ∈ (recurse_regem_up p m r).regems) :
    x ∈ r.regems ∨ (x = p ∧ m.laneletFindUsagesRegem p = [] ∧
      m.areaFindUsagesRegem p = [] ∧ m.regemLayerHas p.id = true) := by
  simp only [recurse_regem_up] at hx
  split at hx
  · next hcond =>
    have hconds : m.areaFindUsagesRegem p = [] ∧
        m.laneletFindUsagesRegem p = [] ∧ m.regemLayerHas p.id = true := by
      simp only [Bool.and_eq_true, beq_iff_eq, List.length_eq_zero] at hcond
      exact ⟨hcond.1.1, hcond.1.2, hcond.2⟩
    rcases mem_regems_insertRegem hx with hx2 | hx2
    · rw [foldl_proj_eq _ _ (fun r2 a => regems_recurse_area_up a m r2),
        foldl_proj_eq _ _ (fun r2 a => regems_recurse_llt_up a m r2)] at hx2
      exact Or.inl hx2
    · exact Or.inr ⟨hx2, hconds.2.1, hconds.1, hconds.2.2⟩
  · rw [foldl_proj_eq _ _ (fun r2 a => regems_recurse_area_up a m r2),
      foldl_proj_eq _ _ (fun r2 a => regems_recurse_llt_up a m r2)] at hx
    exact Or.inl hx

theorem mem_lss_recurse_ls_up {p : LineString} {m : LaneletMap} {r : References}
    {x : LineString} (hx : x ∈ (recurse_ls_up p m r).lss) :
    x ∈ r.lss ∨ (x = p ∧ m.laneletFindUsagesLs p = [] ∧
      m.areaFindUsagesLs p = [] ∧ m.regemFindUsagesLs p = [] ∧
      m.lineStringLayerHas p.id = true) := by
  simp only [recurse_ls_up] at hx
  split at hx
  · next hcond =>
    have hconds : m.areaFindUsagesLs p = [] ∧ m.laneletFindUsagesLs p = [] ∧
        m.regemFindUsagesLs p = [] ∧ m.lineStringLayerHas p.id = true := by
      simp only [Bool.and_eq_true, beq_iff_eq, List.length_eq_zero] at hcond
      exact ⟨hcond.1.1.1, hcond.1.1.2, hcond.1.2, hcond.2⟩
    rcases mem_lss_insertLs hx with hx2 | hx2
    · rw [foldl_proj_eq _ _ (fun r2 a => lss_recurse_regem_up a m r2),
        foldl_proj_eq _ _ (fun r2 a => lss_recurse_area_up a m r2),
        foldl_proj_eq _ _ (fun r2 a => lss_recurse_llt_up a m r2)] at hx2
      exact Or.inl hx2
    · exact Or.inr ⟨hx2, hconds.2.1, hconds.1, hconds.2.2.1, hconds.2.2.2⟩
  · rw [foldl_proj_eq _ _ (fun r2 a => lss_recurse_regem_up a m r2),
      foldl_proj_eq _ _ (fun r2 a => lss_recurse_area_up a m r2),
      foldl_proj_eq _ _ (fun r2 a => lss_recurse_llt_up a m r2)] at hx
    exact Or.inl hx

theorem mem_llts_recurse_ls_up {p : LineString} {m : LaneletMap} {r : References}
    {x : Lanelet} (hx : x ∈ (recurse_ls_up p m r).llts) :
    x ∈ r.llts ∨ m.laneletLayerHas x.id = true := by
  simp only [recurse_ls_up] at hx
  have stepL : ∀ (r2 : References) (a : Lanelet) (y : Lanelet),
      y ∈ (recurse_llt_up a m r2).llts →
      y ∈ r2.llts ∨ m.laneletLayerHas y.id = true :=
    fun r2 a y hy => mem_llts_recurse_llt_up hy
  have stepR : ∀ (r2 : References) (a : RegElem) (y : Lanelet),
      y ∈ (recurse_regem_up a m r2).llts →
      y ∈ r2.llts ∨ m.laneletLayerHas y.id = true :=
    fun r2 a y hy => mem_llts_recurse_regem_up hy
  have hx2 : x ∈ ((m.regemFindUsagesLs p).foldl
      (fun r2 re => recurse_regem_up re m r2)
      ((m.areaFindUsagesLs p).foldl (fun r2 a => recurse_area_up a m r2)
        ((m.laneletFindUsagesLs p).foldl
          (fun r2 llt => recurse_llt_up llt m r2) r))).llts := by
    split at hx
    · rw [llts_insertLs] at hx
      exact hx
    · exact hx
  rcases foldl_mem_cases _ References.llts _ stepR _ _ x hx2 with h | ⟨_, _, h⟩
  · rw [foldl_proj_eq _ _ (fun r2 a => llts_recurse_area_up a m r2)] at h
    rcases foldl_mem_cases _ References.llts _ stepL _ r x h with h2 | ⟨_, _, h2⟩
    · exact Or.inl h2
    · exact Or.inr h2
  · exact Or.inr h

theorem mem_areas_recurse_ls_up {p : LineString} {m : LaneletMap}
    {r : References} {x : Area} (hx : x ∈ (recurse_ls_up p m r).areas) :
    x ∈ r.areas ∨ m.areaLayerHas x.id = true := by
  simp only [recurse_ls_up] at hx
  have stepA : ∀ (r2 : References) (a : Area) (y : Area),
      y ∈ (recurse_area_up a m r2).areas →
      y ∈ r2.areas ∨ m.areaLayerHas y.id = true :=
    fun r2 a y hy => mem_areas_recurse_area_up hy
  have stepR : ∀ (r2 : References) (a : RegElem) (y : Area),
      y ∈ (recurse_regem_up a m r2).areas →
      y ∈ r2.areas ∨ m.areaLayerHas y.id = true :=
    fun r2 a y hy => mem_areas_recurse_regem_up hy
  have hx2 : x ∈ ((m.regemFindUsagesLs p).foldl
      (fun r2 re => recurse_regem_up re m r2)
      ((m.areaFindUsagesLs p).foldl (fun r2 a => recurse_area_up a m r2)
        ((m.laneletFindUsagesLs p).foldl
          (fun r2 llt => recurse_llt_up llt m r2) r))).areas := by
    split at hx
    · rw [areas_insertLs] at hx
      exact hx
    · exact hx
  rcases foldl_mem_cases _ References.areas _ stepR _ _ x hx2 with h | ⟨_, _, h⟩
  · rcases foldl_mem_cases _ References.areas _ stepA _ _ x h with h2 | ⟨_, _, h2⟩
    · rw [foldl_proj_eq _ _ (fun r2 a => areas_recurse_llt_up a m r2)] at h2
      exact Or.inl h2
    · exact Or.inr h2
  · exact Or.inr h

theorem mem_regems_recurse_ls_up {p : LineString} {m : LaneletMap}
    {r : References} {x : RegElem} (hx : x ∈ (recurse_ls_up p m r).regems) :
    x ∈ r.regems ∨ m.regemLayerHas x.id = true := by
  simp only [recurse_ls_up] at hx
  have stepR : ∀ (r2 : References) (a : RegElem) (y : RegElem),
      y ∈ (recurse_regem_up a m r2).regems →
      y ∈ r2.regems ∨ m.regemLayerHas y.id = true := by
    intro r2 a y hy
    rcases mem_regems_recurse_regem_up hy with h | ⟨he, _, _, hhas⟩
    · exact Or.inl h
    · rw [he]; exact Or.inr hhas
  have hx2 : x ∈ ((m.regemFindUsagesLs p).foldl
      (fun r2 re => recurse_regem_up re m r2)
      ((m.areaFindUsagesLs p).foldl (fun r2 a => recurse_area_up a m r2)
        ((m.laneletFindUsagesLs p).foldl
          (fun r2 llt => recurse_llt_up llt m r2) r))).regems := by
    split at hx
    · rw [regems_insertLs] at hx
      exact hx
    · exact hx
  rcases foldl_mem_cases _ References.regems _ stepR _ _ x hx2 with h | ⟨_, _, h⟩
  · rw [foldl_proj_eq _ _ (fun r2 a => regems_recurse_area_up a m r2),
      foldl_proj_eq _ _ (fun r2 a => regems_recurse_llt_up a m r2)] at h
    exact Or.inl h
  · exact Or.inr h

/-! ### Dispatch equalities and entry points -/

theorem recurse_ls_parent (p : LineString) (m : LaneletMap) (r : References) :
    recurse_ls p m CHECK_PARENT r = recurse_ls_up p m r := rfl

theorem recurse_llt_parent (p : Lanelet) (m : LaneletMap) (r : References) :
    recurse_llt p m CHECK_PARENT r = recurse_llt_up p m r := rfl

theorem recurse_area_parent (p : Area) (m : LaneletMap) (r : References) :
    recurse_area p m CHECK_PARENT r = recurse_area_up p m r := rfl

theorem recurse_regem_parent (p : RegElem) (m : LaneletMap) (r : References) :
    recurse_regem p m CHECK_PARENT r = recurse_regem_up p m r := rfl

theorem findReferencesPoint_eq (p : Point) (m : LaneletMap) :
    findReferencesPoint p m = recurse_point p m CHECK_PARENT References.empty := rfl

theorem findReferencesLs_eq (p : LineString) (m : LaneletMap) :
    findReferencesLs p m = recurse_ls_up p m References.empty := rfl

theorem findReferencesLlt_eq (p : Lanelet) (m : LaneletMap) :
    findReferencesLlt p m = recurse_llt_up p m References.empty := rfl

theorem findReferencesArea_eq (p : Area) (m : LaneletMap) :
    findReferencesArea p m = recurse_area_up p m References.empty := rfl

theorem findReferencesRegem_eq (p : RegElem) (m : LaneletMap) :
    findReferencesRegem p m = recurse_regem_up p m References.empty := rfl

/-! ### Preservation of the free-standing invariant -/

theorem freeInv_empty (m : LaneletMap) : FreeStandingInv m References.empty :=
  fun x hx => absurd hx (List.not_mem_nil x)

theorem freeInv_recurse_llt_up {m : LaneletMap} {r : References} (p : Lanelet)
    (h : FreeStandingInv m r) : FreeStandingInv m (recurse_llt_up p m r) := by
  intro x hx
  rw [lss_recurse_llt_up] at hx
  exact h x hx

theorem freeInv_recurse_area_up {m : LaneletMap} {r : References} (p : Area)
    (h : FreeStandingInv m r) : FreeStandingInv m (recurse_area_up p m r) := by
  intro x hx
  rw [lss_recurse_area_up] at hx
  exact h x hx

theorem freeInv_recurse_regem_up {m : LaneletMap} {r : References} (p : RegElem)
    (h : FreeStandingInv m r) : FreeStandingInv m (recurse_regem_up p m r) := by
  intro x hx
  rw [lss_recurse_regem_up] at hx
  exact h x hx

theorem freeInv_recurse_ls_up {m : LaneletMap} {r : References} (p : LineString)
    (h : FreeStandingInv m r) : FreeStandingInv m (recurse_ls_up p m r) := by
  intro x hx
  rcases mem_lss_recurse_ls_up hx with hx2 | ⟨he, h1, h2, h3, _⟩
  · exact h x hx2
  · rw [he]; exact ⟨h1, h2, h3⟩

theorem freeInv_recurse_point {m : LaneletMap} {r : References} (p : Point)
    (d : direction) (h : FreeStandingInv m r) :
    FreeStandingInv m (recurse_point p m d r) := by
  simp only [recurse_point]
  split
  · exact h
  · exact foldl_preserve (FreeStandingInv m) _
      (fun r2 a h2 => freeInv_recurse_ls_up a h2) _ r h

/-! ### Preservation of the existence invariant -/

theorem allExist_empty (m : LaneletMap) : AllExistInv m References.empty :=
  ⟨fun x hx => absurd hx (List.not_mem_nil x),
   fun x hx => absurd hx (List.not_mem_nil x),
   fun x hx => absurd hx (List.not_mem_nil x),
   fun x hx => absurd hx (List.not_mem_nil x)⟩

theorem allExist_recurse_llt_up {m : LaneletMap} {r : References} (p : Lanelet)
    (h : AllExistInv m r) : AllExistInv m (recurse_llt_up p m r) := by
  refine ⟨?_, ?_, ?_, ?_⟩
  · intro x hx; rw [lss_recurse_llt_up] at hx; exact h.1 x hx
  · intro x hx
    rcases mem_llts_recurse_llt_up hx with h2 | h2
    · exact h.2.1 x h2
    · exact h2
  · intro x hx; rw [areas_recurse_llt_up] at hx; exact h.2.2.1 x hx
  · intro x hx; rw [regems_recurse_llt_up] at hx; exact h.2.2.2 x hx

theorem allExist_recurse_area_up {m : LaneletMap} {r : References} (p : Area)
    (h : AllExistInv m r) : AllExistInv m (recurse_area_up p m r) := by
  refine ⟨?_, ?_, ?_, ?_⟩
  · intro x hx; rw [lss_recurse_area_up] at hx; exact h.1 x hx
  · intro x hx; rw [llts_recurse_area_up] at hx; exact h.2.1 x hx
  · intro x hx
    rcases mem_areas_recurse_area_up hx with h2 | h2
    · exact h.2.2.1 x h2
    · exact h2
  · intro x hx; rw [regems_recurse_area_up] at hx; exact h.2.2.2 x hx

theorem allExist_recurse_regem_up {m : LaneletMap} {r : References} (p : RegElem)
    (h : AllExistInv m r) : AllExistInv m (recurse_regem_up p m r) := by
  refine ⟨?_, ?_, ?_, ?_⟩
  · intro x hx; rw [lss_recurse_regem_up] at hx; exact h.1 x hx
  · intro x hx
    rcases mem_llts_recurse_regem_up hx with h2 | h2
    · exact h.2.1 x h2
    · exact h2
  · intro x hx
    rcases mem_areas_recurse_regem_up hx with h2 | h2
    · exact h.2.2.1 x h2
    · exact h2
  · intro x hx
    rcases mem_regems_recurse_regem_up hx with h2 | ⟨he, _, _, hhas⟩
    · exact h.2.2.2 x h2
    · rw [he]; exact hhas

theorem allExist_recurse_ls_up {m : LaneletMap} {r : References} (p : LineString)
    (h : AllExistInv m r) : AllExistInv m (recurse_ls_up p m r) := by
  refine ⟨?_, ?_, ?_, ?_⟩
  · intro x hx
    rcases mem_lss_recurse_ls_up hx with h2 | ⟨he, _, _, _, hhas⟩
    · exact h.1 x h2
    · rw [he]; exact hhas
  · intro x hx
    rcases mem_llts_recurse_ls_up hx with h2 | h2
    · exact h.2.1 x h2
    · exact h2
  · intro x hx
    rcases mem_areas_recurse_ls_up hx with h2 | h2
    · exact h.2.2.1 x h2
    · exact h2
  · intro x hx
    rcases mem_regems_recurse_ls_up hx with h2 | h2
    · exact h.2.2.2 x h2
    · exact h2

theorem allExist_recurse_point {m : LaneletMap} {r : References} (p : Point)
    (d : direction) (h : AllExistInv m r) :
    AllExistInv m (recurse_point p m d r) := by
  simp only [recurse_point]
  split
  · exact h
  · exact foldl_preserve (AllExistInv m) _
      (fun r2 a h2 => allExist_recurse_ls_up a h2) _ r h

/-! ### Preservation of id-uniqueness -/

theorem nodupIds_empty : NodupIds References.empty :=
  ⟨List.nodup_nil, List.nodup_nil, List.nodup_nil, List.nodup_nil⟩

theorem nodupIds_insertLs {rfs : References} (p : LineString)
    (h : NodupIds rfs) : NodupIds (rfs.insertLs p) := by
  unfold References.insertLs
  split
  · exact h
  · next hany =>
    refine ⟨?_, h.2.1, h.2.2.1, h.2.2.2⟩
    simp only [List.map_cons]
    refine List.nodup_cons.mpr ⟨?_, h.1⟩
    intro hmem
    rcases List.mem_map.mp hmem with ⟨x, hx, he⟩
    exact hany (List.any_eq_true.mpr ⟨x, hx, by simp [he]⟩)

theorem nodupIds_insertLlt {rfs : References} (p : Lanelet)
    (h : NodupIds rfs) : NodupIds (rfs.insertLlt p) := by
  unfold References.insertLlt
  split
  · exact h
  · next hany =>
    refine ⟨h.1, ?_, h.2.2.1, h.2.2.2⟩
    simp only [List.map_cons]
    refine List.nodup_cons.mpr ⟨?_, h.2.1⟩
    intro hmem
    rcases List.mem_map.mp hmem with ⟨x, hx, he⟩
    exact hany (List.any_eq_true.mpr ⟨x, hx, by simp [he]⟩)

theorem nodupIds_insertArea {rfs : References} (p : Area)
    (h : NodupIds rfs) : NodupIds (rfs.insertArea p) := by
  unfold References.insertArea
  split
  · exact h
  · next hany =>
    refine ⟨h.1, h.2.1, ?_, h.2.2.2⟩
    simp only [List.map_cons]
    refine List.nodup_cons.mpr ⟨?_, h.2.2.1⟩
    intro hmem
    rcases List.mem_map.mp hmem with ⟨x, hx, he⟩
    exact hany (List.any_eq_true.mpr ⟨x, hx, by simp [he]⟩)

theorem nodupIds_insertRegem {rfs : References} (p : RegElem)
    (h : NodupIds rfs) : NodupIds (rfs.insertRegem p) := by
  unfold References.insertRegem
  split
  · exact h
  · next hany =>
    refine ⟨h.1, h.2.1, h.2.2.1, ?_⟩
    simp only [List.map_cons]
    refine List.nodup_cons.mpr ⟨?_, h.2.2.2⟩
    intro hmem
    rcases List.mem_map.mp hmem with ⟨x, hx, he⟩
    exact hany (List.any_eq_true.mpr ⟨x, hx, by simp [he]⟩)

theorem nodupIds_recurse_llt_up {m : LaneletMap} {r : References} (p : Lanelet)
    (h : NodupIds r) : NodupIds (recurse_llt_up p m r) := by
  unfold recurse_llt_up
  split
  · exact nodupIds_insertLlt p h
  · exact h

theorem nodupIds_recurse_area_up {m : LaneletMap} {r : References} (p : Area)
    (h : NodupIds r) : NodupIds (recurse_area_up p m r) := by
  unfold recurse_area_up
  split
  · exact nodupIds_insertArea p h
  · exact h

theorem nodupIds_recurse_regem_up {m : LaneletMap} {r : References} (p : RegElem)
    (h : NodupIds r) : NodupIds (recurse_regem_up p m r) := by
  simp only [recurse_regem_up]
  have h2 : NodupIds ((m.areaFindUsagesRegem p).foldl
      (fun r2 a => recurse_area_up a m r2)
      ((m.laneletFindUsagesRegem p).foldl
        (fun r2 llt => recurse_llt_up llt m r2) r)) :=
    foldl_preserve NodupIds _ (fun r2 a hh => nodupIds_recurse_area_up a hh) _ _
      (foldl_preserve NodupIds _ (fun r2 a hh => nodupIds_recurse_llt_up a hh)
        _ r h)
  split
  · exact nodupIds_insertRegem p h2
  · exact h2

theorem nodupIds_recurse_ls_up {m : LaneletMap} {r : References} (p : LineString)
    (h : NodupIds r) : NodupIds (recurse_ls_up p m r) := by
  simp only [recurse_ls_up]
  have h3 : NodupIds ((m.regemFindUsagesLs p).foldl
      (fun r2 re => recurse_regem_up re m r2)
      ((m.areaFindUsagesLs p).foldl (fun r2 a => recurse_area_up a m r2)
        ((m.laneletFindUsagesLs p).foldl
          (fun r2 llt => recurse_llt_up llt m r2) r))) :=
    foldl_preserve NodupIds _ (fun r2 a hh => nodupIds_recurse_regem_up a hh) _ _
      (foldl_preserve NodupIds _ (fun r2 a hh => nodupIds_recurse_area_up a hh)
        _ _
        (foldl_preserve NodupIds _ (fun r2 a hh => nodupIds_recurse_llt_up a hh)
          _ r h))
  split
  · exact nodupIds_insertLs p h3
  · exact h3

theorem nodupIds_recurse_point {m : LaneletMap} {r : References} (p : Point)
    (d : direction) (h : NodupIds r) : NodupIds (recurse_point p m d r) := by
  simp only [recurse_point]
  split
  · exact h
  · exact foldl_preserve NodupIds _
      (fun r2 a h2 => nodupIds_recurse_ls_up a h2) _ r h

/-! ### The claims -/

/-- C1: in the concrete scenario — lane segment `L1` with boundary curves
`c1`, `c2` and rule element `R1` attached to `L1` referencing curve `c3`,
which is a boundary of nothing — `findReferences(c3, exMap)` returns exactly
`{laneSegments: {L1}, regulatoryElements: {}, curves: {}, areas: {}}`:
`R1` is not recorded because its owner lookup is non-empty, and `c3` is not
recorded because its rule-element reverse lookup is non-empty. -/
theorem C1_concrete_scenario :
    exMap.laneletFindUsagesLs c3 = [] ∧ exMap.areaFindUsagesLs c3 = [] ∧
    exMap.regemFindUsagesLs c3 = [R1] ∧
    exMap.laneletFindUsagesRegem R1 = [L1] ∧
    (findReferencesLs c3 exMap).llts.map Lanelet.id = [L1.id] ∧
    (findReferencesLs c3 exMap).regems = [] ∧
    (findReferencesLs c3 exMap).lss = [] ∧
    (findReferencesLs c3 exMap).areas = [] :=
  ⟨rfl, rfl, rfl, rfl, rfl, rfl, rfl, rfl⟩

/-- C2: during an upward traversal a curve is inserted into the curve result
set iff all three of its reverse lookups (lanelet, area, rule-element owners)
are empty and its id still exists in the linestring layer; consequently every
curve recorded in a `findReferences` result has all three reverse lookups
empty. -/
theorem C2_free_standing_iff :
    (∀ (prim : LineString) (m : LaneletMap) (rfs : References),
      ¬ hasLsId rfs prim.id →
      (hasLsId (recurse_ls_up prim m rfs) prim.id ↔
        (m.laneletFindUsagesLs prim = [] ∧ m.areaFindUsagesLs prim = [] ∧
         m.regemFindUsagesLs prim = [] ∧
         m.lineStringLayerHas prim.id = true))) ∧
    (∀ (p : Point) (m : LaneletMap),
      FreeStandingInv m (findReferencesPoint p m)) ∧
    (∀ (ls : LineString) (m : LaneletMap),
      FreeStandingInv m (findReferencesLs ls m)) ∧
    (∀ (llt : Lanelet) (m : LaneletMap),
      FreeStandingInv m (findReferencesLlt llt m)) ∧
    (∀ (a : Area) (m : LaneletMap),
      FreeStandingInv m (findReferencesArea a m)) ∧
    (∀ (re : RegElem) (m : LaneletMap),
      FreeStandingInv m (findReferencesRegem re m)) := by
  constructor
  · intro prim m rfs hfresh
    constructor
    · intro hmem
      rcases hmem with ⟨x, hx, he⟩
      rcases mem_lss_recurse_ls_up hx with hx2 | ⟨_, h1, h2, h3, h4⟩
      · exact absurd ⟨x, hx2, he⟩ hfresh
      · exact ⟨h1, h2, h3, h4⟩
    · rintro ⟨h1, h2, h3, h4⟩
      simp only [recurse_ls_up]
      have hcond : ((m.areaFindUsagesLs prim).length == 0
          && (m.laneletFindUsagesLs prim).length == 0
          && (m.regemFindUsagesLs prim).length == 0
          && m.lineStringLayerHas prim.id) = true := by
        simp [h1, h2, h3, h4]
      rw [if_pos hcond]
      exact hasLsId_insertLs_self _ prim
  · refine ⟨?_, ?_, ?_, ?_, ?_⟩
    · intro p m
      rw [findReferencesPoint_eq]
      exact freeInv_recurse_point p CHECK_PARENT (freeInv_empty m)
    · intro ls m
      rw [findReferencesLs_eq]
      exact freeInv_recurse_ls_up ls (freeInv_empty m)
    · intro llt m
      rw [findReferencesLlt_eq]
      exact freeInv_recurse_llt_up llt (freeInv_empty m)
    · intro a m
      rw [findReferencesArea_eq]
      exact freeInv_recurse_area_up a (freeInv_empty m)
    · intro re m
      rw [findReferencesRegem_eq]
      exact freeInv_recurse_regem_up re (freeInv_empty m)

/-- C2 witness: the free-standing curve `c4` of the example map is inserted,
and the characterization's right-hand side holds for it. -/
theorem C2_free_standing_iff_witness :
    ¬ hasLsId References.empty c4.id ∧
    (hasLsId (recurse_ls_up c4 exMap References.empty) c4.id ↔
      (exMap.laneletFindUsagesLs c4 = [] ∧ exMap.areaFindUsagesLs c4 = [] ∧
       exMap.regemFindUsagesLs c4 = [] ∧
       exMap.lineStringLayerHas c4.id = true)) := by
  have hfresh : ¬ hasLsId References.empty c4.id := by
    rintro ⟨x, hx, _⟩
    exact absurd hx (List.not_mem_nil x)
  exact ⟨hfresh, C2_free_standing_iff.1 c4 exMap References.empty hfresh⟩

/-- C3: upward completeness — if the lanelet-layer reverse lookup of a curve
includes lane segment `L`, then the lane-segment component of
`findReferences(c, m)` contains `L` (membership by id). -/
theorem C3_upward_completeness (c : LineString) (m : LaneletMap) (L : Lanelet)
    (h : L ∈ m.laneletFindUsagesLs c) :
    ∃ x ∈ (findReferencesLs c m).llts, x.id = L.id := by
  have hhas : m.laneletLayerHas L.id = true := by
    have hmem : L ∈ m.laneletLayer := List.mem_of_mem_filter h
    exact List.any_eq_true.mpr ⟨L, hmem, by simp⟩
  have key : hasLltId (recurse_ls_up c m References.empty) L.id := by
    simp only [recurse_ls_up]
    have h1 := foldl_establish (fun r => hasLltId r L.id)
      (fun r2 llt => recurse_llt_up llt m r2) L
      (fun r => hasLltId_recurse_llt_up_self L m r hhas)
      (fun r b hb => hasLltId_mono (refSubset_recurse_llt_up b m r) hb)
      (m.laneletFindUsagesLs c) References.empty h
    have h2 := foldl_preserve (fun r => hasLltId r L.id)
      (fun r2 a => recurse_area_up a m r2)
      (fun r b hb => hasLltId_mono (refSubset_recurse_area_up b m r) hb)
      (m.areaFindUsagesLs c) _ h1
    have h3 := foldl_preserve (fun r => hasLltId r L.id)
      (fun r2 re => recurse_regem_up re m r2)
      (fun r b hb => hasLltId_mono (refSubset_recurse_regem_up b m r) hb)
      (m.regemFindUsagesLs c) _ h2
    split
    · exact hasLltId_mono (refSubset_insertLs _ _) h3
    · exact h3
  rw [findReferencesLs_eq]
  exact key

/-- C3 witness: `c1` is a boundary of `L1` in the example map, and `L1`
appears in the result of `findReferences(c1, exMap)`. -/
theorem C3_upward_completeness_witness :
    L1 ∈ exMap.laneletFindUsagesLs c1 ∧
    ∃ x ∈ (findReferencesLs c1 exMap).llts, x.id = L1.id := by
  have hmem : L1 ∈ exMap.laneletFindUsagesLs c1 := by
    rw [show exMap.laneletFindUsagesLs c1 = [L1] from rfl]
    exact List.mem_singleton.mpr rfl
  exact ⟨hmem, C3_upward_completeness c1 exMap L1 hmem⟩

/-- C4: no double counting — insertion is id-idempotent (inserting a
primitive whose id is already present leaves the Reference Set unchanged,
regardless of the view object), and for every input primitive and map each id
occurs at most once within each of the four result sets of
`findReferences`. -/
theorem C4_no_double_counting :
    (∀ (rfs : References) (q : LineString),
      hasLsId rfs q.id → rfs.insertLs q = rfs) ∧
    (∀ (rfs : References) (q : Lanelet),
      hasLltId rfs q.id → rfs.insertLlt q = rfs) ∧
    (∀ (rfs : References) (q : Area),
      hasAreaId rfs q.id → rfs.insertArea q = rfs) ∧
    (∀ (rfs : References) (q : RegElem),
      hasRegemId rfs q.id → rfs.insertRegem q = rfs) ∧
    (∀ (p : Point) (m : LaneletMap), NodupIds (findReferencesPoint p m)) ∧
    (∀ (ls : LineString) (m : LaneletMap), NodupIds (findReferencesLs ls m)) ∧
    (∀ (llt : Lanelet) (m : LaneletMap), NodupIds (findReferencesLlt llt m)) ∧
    (∀ (a : Area) (m : LaneletMap), NodupIds (findReferencesArea a m)) ∧
    (∀ (re : RegElem) (m : LaneletMap), NodupIds (findReferencesRegem re m)) := by
  refine ⟨?_, ?_, ?_, ?_, ?_, ?_, ?_, ?_, ?_⟩
  · rintro rfs q ⟨x, hx, he⟩
    unfold References.insertLs
    rw [if_pos (List.any_eq_true.mpr ⟨x, hx, by simp [he]⟩)]
  · rintro rfs q ⟨x, hx, he⟩
    unfold References.insertLlt
    rw [if_pos (List.any_eq_true.mpr ⟨x, hx, by simp [he]⟩)]
  · rintro rfs q ⟨x, hx, he⟩
    unfold References.insertArea
    rw [if_pos (List.any_eq_true.mpr ⟨x, hx, by simp [he]⟩)]
  · rintro rfs q ⟨x, hx, he⟩
    unfold References.insertRegem
    rw [if_pos (List.any_eq_true.mpr ⟨x, hx, by simp [he]⟩)]
  · intro p m
    rw [findReferencesPoint_eq]
    exact nodupIds_recurse_point p CHECK_PARENT nodupIds_empty
  · intro ls m
    rw [findReferencesLs_eq]
    exact nodupIds_recurse_ls_up ls nodupIds_empty
  · intro llt m
    rw [findReferencesLlt_eq]
    exact nodupIds_recurse_llt_up llt nodupIds_empty
  · intro a m
    rw [findReferencesArea_eq]
    exact nodupIds_recurse_area_up a nodupIds_empty
  · intro re m
    rw [findReferencesRegem_eq]
    exact nodupIds_recurse_regem_up re nodupIds_empty

/-- C4 witness: re-inserting `c3`'s id leaves the set unchanged, and the
concrete-scenario result has no duplicate ids. -/
theorem C4_no_double_counting_witness :
    hasLsId ⟨[c3], [], [], []⟩ c3.id ∧
    References.insertLs ⟨[c3], [], [], []⟩ c3 = ⟨[c3], [], [], []⟩ ∧
    NodupIds (findReferencesLs c3 exMap) := by
  have hh : hasLsId ⟨[c3], [], [], []⟩ c3.id :=
    ⟨c3, List.mem_singleton.mpr rfl, rfl⟩
  exact ⟨hh, C4_no_double_counting.1 _ c3 hh,
    C4_no_double_counting.2.2.2.2.2.1 c3 exMap⟩

/-- C5: every insertion into the Reference Set is guarded by an existence
check of the candidate's id in its own layer, so every recorded primitive's
id exists in its layer — an id absent from its layer is never recorded in any
of the four result sets. -/
theorem C5_existence_guard :
    (∀ (p : Point) (m : LaneletMap), AllExistInv m (findReferencesPoint p m)) ∧
    (∀ (ls : LineString) (m : LaneletMap),
      AllExistInv m (findReferencesLs ls m)) ∧
    (∀ (llt : Lanelet) (m : LaneletMap),
      AllExistInv m (findReferencesLlt llt m)) ∧
    (∀ (a : Area) (m : LaneletMap), AllExistInv m (findReferencesArea a m)) ∧
    (∀ (re : RegElem) (m : LaneletMap),
      AllExistInv m (findReferencesRegem re m)) := by
  refine ⟨?_, ?_, ?_, ?_, ?_⟩
  · intro p m
    rw [findReferencesPoint_eq]
    exact allExist_recurse_point p CHECK_PARENT (allExist_empty m)
  · intro ls m
    rw [findReferencesLs_eq]
    exact allExist_recurse_ls_up ls (allExist_empty m)
  · intro llt m
    rw [findReferencesLlt_eq]
    exact allExist_recurse_llt_up llt (allExist_empty m)
  · intro a m
    rw [findReferencesArea_eq]
    exact allExist_recurse_area_up a (allExist_empty m)
  · intro re m
    rw [findReferencesRegem_eq]
    exact allExist_recurse_regem_up re (allExist_empty m)

/-- C5 witness: `L1` is recorded by the concrete scenario and its id indeed
exists in the lanelet layer. -/
theorem C5_existence_guard_witness :
    L1 ∈ (findReferencesLs c3 exMap).llts ∧
    exMap.laneletLayerHas L1.id = true := by
  have hm : L1 ∈ (findReferencesLs c3 exMap).llts := by
    rw [show (findReferencesLs c3 exMap).llts = [L1] from rfl]
    exact List.mem_singleton.mpr rfl
  exact ⟨hm, (C5_existence_guard.2.1 c3 exMap).2.1 L1 hm⟩

/-- C6: a point owned by no curve yields an empty Reference Set when queried
directly — nothing is recorded in any of the four result sets. -/
theorem C6_orphan_point (p : Point) (m : LaneletMap)
    (h : m.lineStringFindUsages p = []) :
    findReferencesPoint p m = References.empty := by
  rw [findReferencesPoint_eq]
  simp [recurse_point, h]

/-- C6 witness: the point with id 99 is owned by no curve of the example map
and queries to an empty Reference Set. -/
theorem C6_orphan_point_witness :
    exMap.lineStringFindUsages ⟨99⟩ = [] ∧
    findReferencesPoint ⟨99⟩ exMap = References.empty :=
  ⟨rfl, C6_orphan_point ⟨99⟩ exMap rfl⟩

/-- C10: the point recursion ignores its direction argument — CHECK_CHILD and
CHECK_PARENT produce the same result — so a downward expansion of a curve
that reaches its child points turns the traversal upward at each point. -/
theorem C10_point_direction_irrelevant :
    ∀ (p : Point) (m : LaneletMap) (rfs : References),
      recurse_point p m CHECK_CHILD rfs = recurse_point p m CHECK_PARENT rfs ∧
      ∀ (ls : LineString), recurse_ls ls m CHECK_CHILD rfs =
        ls.points.foldl (fun r q => recurse_point q m CHECK_PARENT r) rfs :=
  fun _ _ _ => ⟨rfl, fun _ => rfl⟩

/-! ### Relating the fuelled recursion to the total one -/

theorem foldlM_eq_some {α : Type} (f : References → α → References)
    (fF : References → α → Option References) (l : List α)
    (h : ∀ a ∈ l, ∀ r, fF r a = some (f r a)) :
    ∀ r : References, List.foldlM fF r l = some (l.foldl f r) := by
  induction l with
  | nil => intro r; rfl
  | cons a t ih =>
    intro r
    rw [List.foldl_cons, List.foldlM_cons, h a (List.mem_cons_self a t)]
    exact ih (fun b hb r2 => h b (List.mem_cons_of_mem a hb) r2) (f r a)

theorem recurse_lltF_parent (fuel : Nat) (p : Lanelet) (m : LaneletMap)
    (r : References) :
    recurse_lltF (fuel + 1) p m CHECK_PARENT r =
      some (recurse_llt_up p m r) := rfl

theorem recurse_areaF_parent (fuel : Nat) (p : Area) (m : LaneletMap)
    (r : References) :
    recurse_areaF (fuel + 1) p m CHECK_PARENT r =
      some (recurse_area_up p m r) := rfl

theorem recurse_regemF_parent (fuel : Nat) (p : RegElem) (m : LaneletMap)
    (r : References) :
    recurse_regemF (fuel + 2) p m CHECK_PARENT r =
      some (recurse_regem_up p m r) := by
  show recurse_regemF (Nat.succ (fuel + 1)) p m CHECK_PARENT r = _
  simp only [recurse_regemF]
  rw [if_neg (by decide : ¬ ((CHECK_PARENT : direction) = CHECK_CHILD))]
  rw [foldlM_eq_some _ _ _ (fun a _ r2 => recurse_lltF_parent fuel a m r2)]
  simp only [Option.bind_eq_bind, Option.some_bind]
  rw [foldlM_eq_some _ _ _ (fun a _ r2 => recurse_areaF_parent fuel a m r2)]
  simp only [Option.bind_eq_bind, Option.some_bind]
  rfl

theorem recurse_lsF_parent (fuel : Nat) (p : LineString) (m : LaneletMap)
    (r : References) :
    recurse_lsF (fuel + 3) p m CHECK_PARENT r = some (recurse_ls_up p m r) := by
  show recurse_lsF (Nat.succ (fuel + 2)) p m CHECK_PARENT r = _
  simp only [recurse_lsF]
  rw [if_neg (by decide : ¬ ((CHECK_PARENT : direction) = CHECK_CHILD))]
  rw [foldlM_eq_some _ _ _ (fun a _ r2 => recurse_lltF_parent (fuel + 1) a m r2)]
  simp only [Option.bind_eq_bind, Option.some_bind]
  rw [foldlM_eq_some _ _ _ (fun a _ r2 => recurse_areaF_parent (fuel + 1) a m r2)]
  simp only [Option.bind_eq_bind, Option.some_bind]
  rw [foldlM_eq_some _ _ _ (fun a _ r2 => recurse_regemF_parent fuel a m r2)]
  simp only [Option.bind_eq_bind, Option.some_bind]
  rfl

theorem recurse_pointF_parent (fuel : Nat) (p : Point) (m : LaneletMap)
    (d : direction) (r : References) :
    recurse_pointF (fuel + 4) p m d r = some (recurse_point p m d r) := by
  show recurse_pointF (Nat.succ (fuel + 3)) p m d r = _
  simp only [recurse_pointF]
  split
  · next h2 =>
    simp only [recurse_point]
    rw [if_pos h2]
  · next h2 =>
    rw [foldlM_eq_some _ _ _ (fun a _ r2 => recurse_lsF_parent fuel a m r2)]
    simp only [recurse_point]
    rw [if_neg h2]

theorem recurse_regem_list_down_eq_foldl (l : List RegElem) (m : LaneletMap) :
    ∀ r : References, recurse_regem_list_down l m r =
      l.foldl (fun r2 re => recurse_regem_down re m r2) r := by
  induction l with
  | nil => intro r; rfl
  | cons a t ih =>
    intro r
    rw [List.foldl_cons]
    simp only [recurse_regem_list_down]
    exact ih _

theorem recurse_llt_list_down_eq_foldl (l : List Lanelet) (m : LaneletMap) :
    ∀ r : References, recurse_llt_list_down l m r =
      l.foldl (fun r2 llt => recurse_llt_down llt m r2) r := by
  induction l with
  | nil => intro r; rfl
  | cons a t ih =>
    intro r
    rw [List.foldl_cons]
    simp only [recurse_llt_list_down]
    exact ih _

theorem recurse_area_list_down_eq_foldl (l : List Area) (m : LaneletMap) :
    ∀ r : References, recurse_area_list_down l m r =
      l.foldl (fun r2 a => recurse_area_down a m r2) r := by
  induction l with
  | nil => intro r; rfl
  | cons a t ih =>
    intro r
    rw [List.foldl_cons]
    simp only [recurse_area_list_down]
    exact ih _

theorem one_le_sizeOf_ls (p : LineString) : 1 ≤ sizeOf p := by
  cases p
  simp
  omega

theorem one_le_sizeOf_regem (p : RegElem) : 1 ≤ sizeOf p := by
  cases p
  simp
  omega

theorem recurse_downF_spec : ∀ (fuel : Nat),
    (∀ (p : LineString) (m : LaneletMap) (r : References),
      4 + sizeOf p ≤ fuel →
      recurse_lsF fuel p m CHECK_CHILD r = some (recurse_ls_down p m r)) ∧
    (∀ (p : Lanelet) (m : LaneletMap) (r : References),
      4 + sizeOf p ≤ fuel →
      recurse_lltF fuel p m CHECK_CHILD r = some (recurse_llt_down p m r)) ∧
    (∀ (p : Area) (m : LaneletMap) (r : References),
      4 + sizeOf p ≤ fuel →
      recurse_areaF fuel p m CHECK_CHILD r = some (recurse_area_down p m r)) ∧
    (∀ (p : RegElem) (m : LaneletMap) (r : References),
      4 + sizeOf p ≤ fuel →
      recurse_regemF fuel p m CHECK_CHILD r = some (recurse_regem_down p m r)) := by
  intro fuel
  induction fuel using Nat.strong_induction_on with
  | _ fuel IH =>
    rcases fuel with _ | k
    · refine ⟨?_, ?_, ?_, ?_⟩ <;> (intro p m r h; exfalso; omega)
    · have hk := IH k (Nat.lt_succ_self k)
      refine ⟨?_, ?_, ?_, ?_⟩
      · intro p m r h
        have h1 : 1 ≤ sizeOf p := one_le_sizeOf_ls p
        obtain ⟨j, rfl⟩ : ∃ j, k = j + 4 := ⟨k - 4, by omega⟩
        simp only [recurse_lsF]
        rw [if_pos trivial]
        rw [foldlM_eq_some _ _ _
          (fun a _ r2 => recurse_pointF_parent j a m CHECK_CHILD r2)]
        simp only [recurse_ls_down]
      · intro p m r h
        rcases p with ⟨i, lb, rb, regs⟩
        have hsz : sizeOf (Lanelet.mk i lb rb regs) =
            1 + sizeOf i + sizeOf lb + sizeOf rb + sizeOf regs := by simp
        rw [hsz] at h
        simp only [recurse_lltF]
        rw [if_pos trivial]
        simp only [Lanelet.leftBound, Lanelet.rightBound, Lanelet.regElems]
        rw [hk.1 lb m r (by omega)]
        simp only [Option.bind_eq_bind, Option.some_bind]
        rw [hk.1 rb m _ (by omega)]
        simp only [Option.bind_eq_bind, Option.some_bind]
        rw [foldlM_eq_some _ _ _ (fun a ha r2 => hk.2.2.2 a m r2
          (by have hlt := List.sizeOf_lt_of_mem ha; omega))]
        simp only [recurse_llt_down]
        rw [recurse_regem_list_down_eq_foldl]
      · intro p m r h
        rcases p with ⟨i, outer, inner, regs⟩
        have hsz : sizeOf (Area.mk i outer inner regs) =
            1 + sizeOf i + sizeOf outer + sizeOf inner + sizeOf regs := by simp
        rw [hsz] at h
        simp only [recurse_areaF]
        rw [if_pos trivial]
        simp only [Area.outerBound, Area.innerBounds, Area.regElems]
        rw [foldlM_eq_some _ _ _ (fun a ha r2 => hk.1 a m r2
          (by have hlt := List.sizeOf_lt_of_mem ha; omega))]
        simp only [Option.bind_eq_bind, Option.some_bind]
        rw [foldlM_eq_some _ _ _ (fun loop hloop r2 => foldlM_eq_some _ _ _
          (fun a ha r3 => hk.1 a m r3
            (by
              have hlt1 := List.sizeOf_lt_of_mem hloop
              have hlt2 := List.sizeOf_lt_of_mem ha
              omega)) r2)]
        simp only [Option.bind_eq_bind, Option.some_bind]
        rw [foldlM_eq_some _ _ _ (fun a ha r2 => hk.2.2.2 a m r2
          (by have hlt := List.sizeOf_lt_of_mem ha; omega))]
        simp only [recurse_area_down]
        rw [recurse_regem_list_down_eq_foldl]
      · intro p m r h
        have h1 : 1 ≤ sizeOf p := one_le_sizeOf_regem p
        obtain ⟨j, rfl⟩ : ∃ j, k = j + 4 := ⟨k - 4, by omega⟩
        rcases p with ⟨i, pps, plss, pllts, pareas⟩
        have hsz : sizeOf (RegElem.mk i pps plss pllts pareas) =
            1 + sizeOf i + sizeOf pps + sizeOf plss + sizeOf pllts
              + sizeOf pareas := by simp
        rw [hsz] at h
        simp only [recurse_regemF]
        rw [if_pos trivial]
        simp only [RegElem.paramPoints, RegElem.paramLineStrings,
          RegElem.paramLanelets, RegElem.paramAreas]
        rw [foldlM_eq_some _ _ _
          (fun a _ r2 => recurse_pointF_parent j a m CHECK_CHILD r2)]
        simp only [Option.bind_eq_bind, Option.some_bind]
        rw [foldlM_eq_some _ _ _ (fun a ha r2 => hk.1 a m r2
          (by have hlt := List.sizeOf_lt_of_mem ha; omega))]
        simp only [Option.bind_eq_bind, Option.some_bind]
        rw [foldlM_eq_some _ _ _ (fun a ha r2 => hk.2.1 a m r2
          (by have hlt := List.sizeOf_lt_of_mem ha; omega))]
        simp only [Option.bind_eq_bind, Option.some_bind]
        rw [foldlM_eq_some _ _ _ (fun a ha r2 => hk.2.2.1 a m r2
          (by have hlt := List.sizeOf_lt_of_mem ha; omega))]
        simp only [recurse_regem_down]
        rw [recurse_llt_list_down_eq_foldl, recurse_area_list_down_eq_foldl]

/-- C7: `findReferences` is pure and deterministic on a fixed snapshot:
repeated calls yield identical Reference Sets, and the result depends only on
the map snapshot's layers — two maps with equal linestring, lanelet, area and
regulatory-element layers yield equal results.  The call returns only a
Reference Set; the map value is read, never modified. -/
theorem C7_pure_deterministic :
    (∀ (p : Point) (m : LaneletMap),
      findReferencesPoint p m = findReferencesPoint p m) ∧
    (∀ (ls : LineString) (m : LaneletMap),
      findReferencesLs ls m = findReferencesLs ls m) ∧
    (∀ (llt : Lanelet) (m : LaneletMap),
      findReferencesLlt llt m = findReferencesLlt llt m) ∧
    (∀ (a : Area) (m : LaneletMap),
      findReferencesArea a m = findReferencesArea a m) ∧
    (∀ (re : RegElem) (m : LaneletMap),
      findReferencesRegem re m = findReferencesRegem re m) ∧
    (∀ (p : Point) (m m2 : LaneletMap),
      m.lineStringLayer = m2.lineStringLayer →
      m.laneletLayer = m2.laneletLayer → m.areaLayer = m2.areaLayer →
      m.regulatoryElementLayer = m2.regulatoryElementLayer →
      findReferencesPoint p m = findReferencesPoint p m2) ∧
    (∀ (ls : LineString) (m m2 : LaneletMap),
      m.lineStringLayer = m2.lineStringLayer →
      m.laneletLayer = m2.laneletLayer → m.areaLayer = m2.areaLayer →
      m.regulatoryElementLayer = m2.regulatoryElementLayer →
      findReferencesLs ls m = findReferencesLs ls m2) ∧
    (∀ (llt : Lanelet) (m m2 : LaneletMap),
      m.lineStringLayer = m2.lineStringLayer →
      m.laneletLayer = m2.laneletLayer → m.areaLayer = m2.areaLayer →
      m.regulatoryElementLayer = m2.regulatoryElementLayer →
      findReferencesLlt llt m = findReferencesLlt llt m2) ∧
    (∀ (a : Area) (m m2 : LaneletMap),
      m.lineStringLayer = m2.lineStringLayer →
      m.laneletLayer = m2.laneletLayer → m.areaLayer = m2.areaLayer →
      m.regulatoryElementLayer = m2.regulatoryElementLayer →
      findReferencesArea a m = findReferencesArea a m2) ∧
    (∀ (re : RegElem) (m m2 : LaneletMap),
      m.lineStringLayer = m2.lineStringLayer →
      m.laneletLayer = m2.laneletLayer → m.areaLayer = m2.areaLayer →
      m.regulatoryElementLayer = m2.regulatoryElementLayer →
      findReferencesRegem re m = findReferencesRegem re m2) := by
  refine ⟨fun _ _ => rfl, fun _ _ => rfl, fun _ _ => rfl, fun _ _ => rfl,
    fun _ _ => rfl, ?_, ?_, ?_, ?_, ?_⟩
  · intro p m m2 h1 h2 h3 h4
    rcases m with ⟨pl, lsl, lltl, al, rel⟩
    rcases m2 with ⟨pl2, lsl2, lltl2, al2, rel2⟩
    obtain rfl : lsl = lsl2 := h1
    obtain rfl : lltl = lltl2 := h2
    obtain rfl : al = al2 := h3
    obtain rfl : rel = rel2 := h4
    rfl
  · intro p m m2 h1 h2 h3 h4
    rcases m with ⟨pl, lsl, lltl, al, rel⟩
    rcases m2 with ⟨pl2, lsl2, lltl2, al2, rel2⟩
    obtain rfl : lsl = lsl2 := h1
    obtain rfl : lltl = lltl2 := h2
    obtain rfl : al = al2 := h3
    obtain rfl : rel = rel2 := h4
    rfl
  · intro p m m2 h1 h2 h3 h4
    rcases m with ⟨pl, lsl, lltl, al, rel⟩
    rcases m2 with ⟨pl2, lsl2, lltl2, al2, rel2⟩
    obtain rfl : lsl = lsl2 := h1
    obtain rfl : lltl = lltl2 := h2
    obtain rfl : al = al2 := h3
    obtain rfl : rel = rel2 := h4
    rfl
  · intro p m m2 h1 h2 h3 h4
    rcases m with ⟨pl, lsl, lltl, al, rel⟩
    rcases m2 with ⟨pl2, lsl2, lltl2, al2, rel2⟩
    obtain rfl : lsl = lsl2 := h1
    obtain rfl : lltl = lltl2 := h2
    obtain rfl : al = al2 := h3
    obtain rfl : rel = rel2 := h4
    rfl
  · intro p m m2 h1 h2 h3 h4
    rcases m with ⟨pl, lsl, lltl, al, rel⟩
    rcases m2 with ⟨pl2, lsl2, lltl2, al2, rel2⟩
    obtain rfl : lsl = lsl2 := h1
    obtain rfl : lltl = lltl2 := h2
    obtain rfl : al = al2 := h3
    obtain rfl : rel = rel2 := h4
    rfl

/-- C7 witness: `exMap` and `exMap2` differ only in the point layer, and the
query on `p1` gives the same result on both. -/
theorem C7_pure_deterministic_witness :
    exMap.lineStringLayer = exMap2.lineStringLayer ∧
    exMap.laneletLayer = exMap2.laneletLayer ∧
    exMap.areaLayer = exMap2.areaLayer ∧
    exMap.regulatoryElementLayer = exMap2.regulatoryElementLayer ∧
    findReferencesPoint p1 exMap = findReferencesPoint p1 exMap2 :=
  ⟨rfl, rfl, rfl, rfl,
    C7_pure_deterministic.2.2.2.2.2.1 p1 exMap exMap2 rfl rfl rfl rfl⟩

/-- C8: every `findReferences` call terminates.  Entered upward (the entry
direction of `findReferences`), fuel 4 — one unit per layer transition —
already makes the fuelled recursion return the total traversal's result, for
every primitive kind and every map: the upward recursion ascends at most four
layer transitions.  Entered downward, fuel bounded by four plus the
primitive's containment-tree size suffices: the downward recursion strictly
descends the bounded containment tree.  (Ownership acyclicity is built into
the embedding: containment is structural.) -/
theorem C8_termination :
    (∀ (p : Point) (m : LaneletMap),
      recurse_pointF 4 p m CHECK_PARENT References.empty =
        some (findReferencesPoint p m)) ∧
    (∀ (ls : LineString) (m : LaneletMap),
      recurse_lsF 4 ls m CHECK_PARENT References.empty =
        some (findReferencesLs ls m)) ∧
    (∀ (llt : Lanelet) (m : LaneletMap),
      recurse_lltF 4 llt m CHECK_PARENT References.empty =
        some (findReferencesLlt llt m)) ∧
    (∀ (a : Area) (m : LaneletMap),
      recurse_areaF 4 a m CHECK_PARENT References.empty =
        some (findReferencesArea a m)) ∧
    (∀ (re : RegElem) (m : LaneletMap),
      recurse_regemF 4 re m CHECK_PARENT References.empty =
        some (findReferencesRegem re m)) ∧
    (∀ (ls : LineString) (m : LaneletMap) (r : References) (fuel : Nat),
      4 + sizeOf ls ≤ fuel →
      recurse_lsF fuel ls m CHECK_CHILD r =
        some (recurse_ls ls m CHECK_CHILD r)) ∧
    (∀ (llt : Lanelet) (m : LaneletMap) (r : References) (fuel : Nat),
      4 + sizeOf llt ≤ fuel →
      recurse_lltF fuel llt m CHECK_CHILD r =
        some (recurse_llt llt m CHECK_CHILD r)) ∧
    (∀ (a : Area) (m : LaneletMap) (r : References) (fuel : Nat),
      4 + sizeOf a ≤ fuel →
      recurse_areaF fuel a m CHECK_CHILD r =
        some (recurse_area a m CHECK_CHILD r)) ∧
    (∀ (re : RegElem) (m : LaneletMap) (r : References) (fuel : Nat),
      4 + sizeOf re ≤ fuel →
      recurse_regemF fuel re m CHECK_CHILD r =
        some (recurse_regem re m CHECK_CHILD r)) := by
  refine ⟨?_, ?_, ?_, ?_, ?_, ?_, ?_, ?_, ?_⟩
  · intro p m
    exact recurse_pointF_parent 0 p m CHECK_PARENT References.empty
  · intro ls m
    exact recurse_lsF_parent 1 ls m References.empty
  · intro llt m
    exact recurse_lltF_parent 3 llt m References.empty
  · intro a m
    exact recurse_areaF_parent 3 a m References.empty
  · intro re m
    exact recurse_regemF_parent 2 re m References.empty
  · intro ls m r fuel h
    exact (recurse_downF_spec fuel).1 ls m r h
  · intro llt m r fuel h
    exact (recurse_downF_spec fuel).2.1 llt m r h
  · intro a m r fuel h
    exact (recurse_downF_spec fuel).2.2.1 a m r h
  · intro re m r fuel h
    exact (recurse_downF_spec fuel).2.2.2 re m r h

/-- C8 witness: the downward fuel bound applied to lane segment `L1` at its
exact size. -/
theorem C8_termination_witness :
    4 + sizeOf L1 ≤ 4 + sizeOf L1 ∧
    recurse_lltF (4 + sizeOf L1) L1 exMap CHECK_CHILD References.empty =
      some (recurse_llt L1 exMap CHECK_CHILD References.empty) :=
  ⟨Nat.le_refl _,
    C8_termination.2.2.2.2.2.2.1 L1 exMap References.empty (4 + sizeOf L1)
      (Nat.le_refl _)⟩

end Lanelet2
